import Mathlib

/-!
Verification of the incremental date-windowed import scheduler of the
`carepoint.backend` model (`connector_carepoint/models/carepoint_backend.py`).

The embedding is shallow and at second resolution: Python `datetime` values
are modelled by the `DT` structure below (Python datetimes always hold a
valid proleptic-Gregorian date; microseconds are not modelled because the
watermark is persisted through `fields.Datetime.to_string`, which has
second resolution, and all claim inputs are whole seconds).

External collaborators are modelled as data:
  * the job queue (`delay(priority).import_batch(...)` and
    `.import_record(...)`) is a list of submitted task records;
  * the outcome of `check_carepoint_structure` / `synchronize_metadata`
    (which performs a direct metadata `import_batch` that may raise) is an
    oracle boolean `structureOk` carried on each backend;
  * the ORM persistence of the watermark field is the single `WriteOp`
    list in the pass result.
-/

namespace Carepoint

/-- A calendar instant at second resolution, mirroring Python `datetime`. -/
structure DT where
  year : Nat
  month : Nat
  day : Nat
  hour : Nat
  minute : Nat
  second : Nat
deriving DecidableEq

/-- Python `datetime` comparison (`<`): lexicographic on the components,
which coincides with timeline order on the valid instants Python can
construct. -/
def DT.lt (a b : DT) : Prop :=
  a.year < b.year ∨ (a.year = b.year ∧ (a.month < b.month ∨ (a.month = b.month ∧
    (a.day < b.day ∨ (a.day = b.day ∧ (a.hour < b.hour ∨ (a.hour = b.hour ∧
      (a.minute < b.minute ∨ (a.minute = b.minute ∧ a.second < b.second)))))))))

instance instDTltDec (a b : DT) : Decidable (DT.lt a b) := by
  unfold DT.lt
  exact inferInstance

/-- Python `datetime` comparison (`<=`), as the negation of the converse
strict comparison (the order is total). -/
def DT.le (a b : DT) : Prop := ¬ DT.lt b a

instance instDTleDec (a b : DT) : Decidable (DT.le a b) := by
  unfold DT.le
  exact inferInstance

/-- Gregorian leap-year rule (as in Python's `calendar`/`datetime`). -/
def isLeap (y : Nat) : Bool := (y % 4 == 0 && y % 100 != 0) || y % 400 == 0

/-- Number of days of month `m` in year `y`. -/
def daysInMonth (y m : Nat) : Nat :=
  if m = 2 then (if isLeap y then 29 else 28)
  else if m = 4 ∨ m = 6 ∨ m = 9 ∨ m = 11 then 30
  else 31

/-- Days contained in the years `0, …, y-1`. -/
def daysBeforeYear : Nat → Nat
  | 0 => 0
  | y + 1 => daysBeforeYear y + (if isLeap y then 366 else 365)

/-- Days contained in the months `1, …, m-1` of year `y`. -/
def daysBeforeMonth (y : Nat) : Nat → Nat
  | 0 => 0
  | 1 => 0
  | m + 2 => daysBeforeMonth y (m + 1) + daysInMonth y (m + 1)

/-- Seconds elapsed from 0000-01-01T00:00:00 to a (valid) instant. -/
def toSecs (d : DT) : Nat :=
  ((daysBeforeYear d.year + daysBeforeMonth d.year d.month + (d.day - 1)) * 24 + d.hour) * 3600
    + d.minute * 60 + d.second

/-- The instants Python's `datetime` constructor accepts (at second
resolution). -/
def Valid (d : DT) : Prop :=
  1 ≤ d.month ∧ d.month ≤ 12 ∧ 1 ≤ d.day ∧ d.day ≤ daysInMonth d.year d.month ∧
    d.hour ≤ 23 ∧ d.minute ≤ 59 ∧ d.second ≤ 59

instance instValidDec (d : DT) : Decidable (Valid d) := by
  unfold Valid
  exact inferInstance

/-- One second earlier, with calendar borrow: `datetime - timedelta(seconds=1)`. -/
def predSec (d : DT) : DT :=
  if 0 < d.second then { d with second := d.second - 1 }
  else if 0 < d.minute then { d with minute := d.minute - 1, second := 59 }
  else if 0 < d.hour then { d with hour := d.hour - 1, minute := 59, second := 59 }
  else if 1 < d.day then { d with day := d.day - 1, hour := 23, minute := 59, second := 59 }
  else if 1 < d.month then
    { d with month := d.month - 1, day := daysInMonth d.year (d.month - 1),
             hour := 23, minute := 59, second := 59 }
  else
    { year := d.year - 1, month := 12, day := 31, hour := 23, minute := 59, second := 59 }

/-- `datetime - timedelta(seconds=n)` (used for the buffer subtraction at
the end of a pass). -/
def subSeconds (d : DT) : Nat → DT
  | 0 => d
  | n + 1 => subSeconds (predSec d) n

/-- `IMPORT_DELTA_BUFFER = 30  # seconds` (line 21). -/
def IMPORT_DELTA_BUFFER : Nat := 30

/-- Absolute month index `year*12 + (month-1)` of an instant. -/
def DT.monthIdx (d : DT) : Nat := d.year * 12 + (d.month - 1)

/-- The occurrence of the recurrence
`rrule(MONTHLY, byminute=0, bysecond=0, dtstart=start)` falling in the
month with absolute index `mi`: day and hour are inherited from `dtstart`,
minutes and seconds are zeroed, and a month lacking `dtstart.day` has no
occurrence (dateutil skips it). -/
def occOfMonth (start : DT) (mi : Nat) : Option DT :=
  if start.day ≤ daysInMonth (mi / 12) (mi % 12 + 1) then
    some ⟨mi / 12, mi % 12 + 1, start.day, start.hour, 0, 0⟩
  else none

/-- `rule.between(start, end, inc=False)` for the monthly rule above: the
occurrences strictly between `start` and `end`, in chronological order.
Candidate months outside `[start.monthIdx, e.monthIdx]` cannot hold an
occurrence strictly between the two endpoints, so enumerating that closed
range of months is exhaustive. -/
def rruleBetween (start e : DT) : List DT :=
  ((List.range (e.monthIdx + 1 - start.monthIdx)).filterMap
      (fun k => occOfMonth start (start.monthIdx + k))).filter
    (fun o => decide (DT.lt start o) && decide (DT.lt o e))

/-- `__iter_rrule(start, end)` (lines 342-350) with the default
`inc=True, freq=rrule.MONTHLY`: yield `start`, the occurrences strictly
between, then yield `end`. -/
def iter_rrule (start e : DT) : List DT :=
  start :: (rruleBetween start e ++ [e])

/-- One configured `carepoint.backend` record, restricted to the fields the
scheduler reads. `structureOk` is the oracle outcome of
`check_carepoint_structure` (whether the direct metadata synchronization it
performs succeeds); `watermark` is the current value of the pass's
`from_date_field` column (`False`/unset is `none`). -/
structure Backend where
  id : Nat
  dateDataStart : DT
  importInverse : Bool
  structureOk : Bool
  watermark : Option DT
deriving DecidableEq

/-- `check_carepoint_structure` (lines 252-256): runs
`synchronize_metadata`, whose direct `import_batch` either succeeds or
raises; the outcome is the backend's oracle bit. -/
def check_carepoint_structure (b : Backend) : Bool := b.structureOk

/-- One delayed `import_batch` submission
(`self.env[model_name].delay(priority).import_batch(backend, filters=...)`)
with its window filter `{dateField: {'>=': filterGe, '<=': filterLe}}`. -/
structure Task where
  backendId : Nat
  modelName : String
  dateField : String
  filterGe : DT
  filterLe : DT
  priority : Nat
deriving DecidableEq

/-- Result of a fragment of a scheduling pass: the structure-guard runs it
performed (backend ids, in order), the tasks it submitted, and whether it
completed without a guard failure (an exception aborts the pass). -/
structure StepOut where
  guards : List Nat
  tasks : List Task
  ok : Bool
deriving DecidableEq

/-- `__import_from_date` (the dispatch helper, lines 324-340): normalize the
endpoints by swapping when `start > end`, re-run the structure guard, and
submit one filtered batch import. -/
def importFromDateInner (b : Backend) (modelName : String) (start e : DT)
    (dateField : String) (priority : Nat) : StepOut :=
  let s := if DT.lt e start then e else start
  let en := if DT.lt e start then start else e
  if check_carepoint_structure b then
    ⟨[b.id], [⟨b.id, modelName, dateField, s, en, priority⟩], true⟩
  else ⟨[b.id], [], false⟩

/-- The `for dt in iter_dates` loop of `_import_from_date` (lines 301-309):
`fromDate` is the running `from_date` variable; a pair with
`from_date == dt` is skipped; otherwise the helper is invoked once for the
`add_date` field and once for the `chg_date` field, then `from_date = dt`.
A guard failure inside the helper aborts the remainder. -/
def importLoop (b : Backend) (modelName chgF addF : String) : DT → List DT → StepOut
  | _, [] => ⟨[], [], true⟩
  | fromDate, dt :: rest =>
    if fromDate ≠ dt then
      let r1 := importFromDateInner b modelName fromDate dt addF 10
      if r1.ok then
        let r2 := importFromDateInner b modelName fromDate dt chgF 10
        if r2.ok then
          let rr := importLoop b modelName chgF addF dt rest
          ⟨r1.guards ++ (r2.guards ++ rr.guards), r1.tasks ++ (r2.tasks ++ rr.tasks), rr.ok⟩
        else ⟨r1.guards ++ r2.guards, r1.tasks ++ r2.tasks, false⟩
      else ⟨r1.guards, r1.tasks, false⟩
    else importLoop b modelName chgF addF dt rest

/-- Per-backend body of `_import_from_date` (lines 286-309): guard, resolve
`from_date` (stored watermark, else `date_data_start`), generate the
boundary sequence up to `now` (= `to_date` = `import_start_time`), reverse
it when `import_inverse` is set, then run the dispatch loop. -/
def processBackend (b : Backend) (modelName chgF addF : String) (now : DT) : StepOut :=
  if check_carepoint_structure b then
    let fromDate := b.watermark.getD b.dateDataStart
    let dates0 := iter_rrule fromDate now
    let dates := if b.importInverse then dates0.reverse else dates0
    let r := importLoop b modelName chgF addF fromDate dates
    ⟨b.id :: r.guards, r.tasks, r.ok⟩
  else ⟨[b.id], [], false⟩

/-- The `for backend in self` loop of `_import_from_date`: process the
recordset in order, aborting on the first guard failure. -/
def importBackends (modelName chgF addF : String) (now : DT) : List Backend → StepOut
  | [] => ⟨[], [], true⟩
  | b :: rest =>
    let r := processBackend b modelName chgF addF now
    if r.ok then
      let rr := importBackends modelName chgF addF now rest
      ⟨r.guards ++ rr.guards, r.tasks ++ rr.tasks, rr.ok⟩
    else r

/-- One ORM `write`: `targetIds.write({field: value})`. -/
structure WriteOp where
  targetIds : List Nat
  field : String
  value : DT
deriving DecidableEq

/-- Outcome of a whole `_import_from_date` pass. -/
structure PassResult where
  guardChecked : List Nat
  tasks : List Task
  writes : List WriteOp
  ok : Bool
deriving DecidableEq

/-- `_import_from_date` (lines 278-322). `now` is `import_start_time =
datetime.now()`, captured once before the backend loop; every backend's
`to_date` is this same value. On success the single final write
`self.write({from_date_field: import_start_time - timedelta(seconds=30)})`
targets the whole recordset; an aborted pass performs no write. -/
def importFromDate (backends : List Backend)
    (modelName fromDateField chgDateField addDateField : String) (now : DT) : PassResult :=
  let r := importBackends modelName chgDateField addDateField now backends
  if r.ok then
    ⟨r.guards, r.tasks,
      [⟨backends.map Backend.id, fromDateField, subSeconds now IMPORT_DELTA_BUFFER⟩], true⟩
  else ⟨r.guards, r.tasks, [], false⟩

/-- The concatenation, backend by backend, of the tasks each backend's body
produces against one shared `to_date` value `now`. -/
def perBackendTasks (modelName chgF addF : String) (now : DT) : List Backend → List Task
  | [] => []
  | b :: rest =>
    (processBackend b modelName chgF addF now).tasks ++ perBackendTasks modelName chgF addF now rest

/-- Python exceptions surfaced by the embedded methods. -/
inductive PyError
  | nameError : String → PyError
  | validationError : String → PyError
deriving DecidableEq

/-- One `carepoint.bind` binding of a local record. -/
structure CarepointBinding where
  backend_id : Nat
  carepoint_id : Nat
deriving DecidableEq

/-- One local record of the binding model, with its `carepoint_bind_ids`. -/
structure BoundRecord where
  carepoint_bind_ids : List CarepointBinding
deriving DecidableEq

/-- One forced `import_record` submission. -/
structure ForcedImportTask where
  backendId : Nat
  remotePk : Nat
  force : Bool
  priority : Nat
deriving DecidableEq

/-- `resync_all` (lines 364-371). The inner loop evaluates
`bindind.carepoint_id`, but `bindind` is an unbound name (a typo for
`binding`, and no global of that name exists), so the first binding reached
raises `NameError` before any `import_record` submission; only a run that
never reaches a binding returns normally (having submitted nothing). -/
def resync_all (records : List BoundRecord) (priority : Nat) :
    Except PyError (List ForcedImportTask) :=
  match records with
  | [] => .ok []
  | r :: rest =>
    match r.carepoint_bind_ids with
    | [] => resync_all rest priority
    | _ :: _ => .error (.nameError "bindind")

/-- The `backend` argument of `force_sync`: an integer id (resolved through
`browse`) or an already-browsed record. -/
inductive BackendArg
  | byId : Nat → BackendArg
  | byRecord : Backend → BackendArg
deriving DecidableEq

/-- `force_sync` (lines 373-380): after resolving an integer `backend`
through `browse`, the body evaluates `self.env[binding_model].delay(priority)`
— but `priority` is not a parameter of `force_sync` and is not defined in
any enclosing scope, so every call raises `NameError` before any
submission. -/
def force_sync (bindingModel : String) (remotePk : Nat) (backend : BackendArg) :
    Except PyError ForcedImportTask :=
  .error (.nameError "priority")

/-- One `carepoint.backend` row, restricted to the fields of the
`_check_default_for_company` constraint. All rows are taken as active:
the constraint's `self.search(domain)` only sees active records, and the
archived-record behaviour of the ORM is outside this model. -/
structure BackendRow where
  id : Nat
  company_id : Nat
  is_default : Bool
deriving DecidableEq

/-- The value dict of a `write`, restricted to the constrained fields;
`none` means the key is absent from the dict. -/
structure WriteVals where
  is_default : Option Bool
  company_id : Option Nat
deriving DecidableEq

/-- Apply a value dict to one row. -/
def applyVals (vals : WriteVals) (r : BackendRow) : BackendRow :=
  { r with is_default := vals.is_default.getD r.is_default,
           company_id := vals.company_id.getD r.company_id }

/-- The table after the update part of `write` has been applied to the
targeted rows. -/
def writtenState (recs : List BackendRow) (targets : List Nat) (vals : WriteVals) :
    List BackendRow :=
  recs.map (fun r => if targets.contains r.id then applyVals vals r else r)

/-- `len(self.search([('company_id','=',c), ('is_default','=',True)]))`. -/
def countDefaults (recs : List BackendRow) (c : Nat) : Nat :=
  recs.countP (fun r => r.company_id == c && r.is_default)

def defaultErrMsg : String := "This company already has a default CarePoint connector."

/-- `_check_default_for_company` (lines 230-241), evaluated over the rows of
`self` (the written rows): each one's company must not have more than one
default connector in the whole table. -/
def checkDefaultForCompany (recs written : List BackendRow) : Bool :=
  written.all (fun q => decide (countDefaults recs q.company_id ≤ 1))

/-- ORM `write` on `carepoint.backend` with the
`@api.constrains('is_default', 'company_id')` trigger: the constraint runs
after the update, inside the transaction, only when one of the constrained
fields is among the written keys; raising `ValidationError` rolls the
update back, so the stored table is unchanged on error. -/
def writeBackend (recs : List BackendRow) (targets : List Nat) (vals : WriteVals) :
    Except PyError (List BackendRow) :=
  let newRecs := writtenState recs targets vals
  if vals.is_default.isSome || vals.company_id.isSome then
    if checkDefaultForCompany newRecs (newRecs.filter (fun r => targets.contains r.id)) then
      .ok newRecs
    else .error (.validationError defaultErrMsg)
  else .ok newRecs

/-! ### Order lemmas for `DT` -/

lemma DT.lt_asymm {a b : DT} (h : DT.lt a b) : ¬ DT.lt b a := by
  unfold DT.lt at *
  omega

lemma DT.lt_irrefl (a : DT) : ¬ DT.lt a a := by
  unfold DT.lt
  omega

/-! ### The boundary generator -/

lemma mem_rruleBetween {s e o : DT} (h : o ∈ rruleBetween s e) :
    DT.lt s o ∧ DT.lt o e := by
  unfold rruleBetween at h
  have h2 := (List.mem_filter.mp h).2
  simp only [Bool.and_eq_true, decide_eq_true_eq] at h2
  exact h2

lemma occOfMonth_eq {start : DT} {mi : Nat} {o : DT} (h : occOfMonth start mi = some o) :
    o = ⟨mi / 12, mi % 12 + 1, start.day, start.hour, 0, 0⟩ := by
  unfold occOfMonth at h
  split at h
  · exact (Option.some.inj h).symm
  · exact Option.noConfusion h

lemma pairwise_rruleBetween (s e : DT) : (rruleBetween s e).Pairwise DT.lt := by
  unfold rruleBetween
  apply List.Pairwise.sublist (List.filter_sublist _)
  rw [List.pairwise_filterMap]
  refine (List.pairwise_lt_range _).imp ?_
  intro k k' hkk o ho o' ho'
  rw [occOfMonth_eq (Option.mem_def.mp ho), occOfMonth_eq (Option.mem_def.mp ho')]
  unfold DT.lt
  dsimp only
  omega

lemma rruleBetween_self (s : DT) : rruleBetween s s = [] := by
  unfold rruleBetween
  apply List.filter_eq_nil_iff.mpr
  intro o _
  simp only [Bool.and_eq_true, decide_eq_true_eq, not_and]
  intro h1 h2
  exact DT.lt_asymm h1 h2

lemma iter_rrule_self (s : DT) : iter_rrule s s = [s, s] := by
  unfold iter_rrule
  rw [rruleBetween_self]
  rfl

/-- Claim C2 (counterexample): with `start = end = 2020-01-01T00:00:00` the
generator yields both inclusive endpoints, i.e. the two-element sequence
`[start, start]`, not the single instant `[start]` the claim states. -/
theorem c2_counterexample :
    iter_rrule ⟨2020, 1, 1, 0, 0, 0⟩ ⟨2020, 1, 1, 0, 0, 0⟩ ≠ [⟨2020, 1, 1, 0, 0, 0⟩] := by
  decide

/-- Claim C2 (amended): for `start < end` the boundary sequence begins with
`start`, ends with `end`, and is strictly increasing throughout; when
`start = end` the generator yields the two-element sequence
`[start, start]` (each inclusive endpoint once), not a single instant. -/
theorem c2_boundary_sequence :
    (∀ s e : DT, DT.lt s e →
      (iter_rrule s e).head? = some s ∧ (iter_rrule s e).getLast? = some e ∧
        (iter_rrule s e).Pairwise DT.lt) ∧
    (∀ s : DT, iter_rrule s s = [s, s]) := by
  constructor
  · intro s e hse
    refine ⟨rfl, ?_, ?_⟩
    · show ((s :: rruleBetween s e) ++ [e]).getLast? = some e
      exact List.getLast?_concat _
    · unfold iter_rrule
      refine List.Pairwise.cons ?_ ?_
      · intro a ha
        rcases List.mem_append.mp ha with h | h
        · exact (mem_rruleBetween h).1
        · rw [List.mem_singleton.mp h]
          exact hse
      · refine List.pairwise_append.mpr
          ⟨pairwise_rruleBetween s e, List.pairwise_singleton _ _, ?_⟩
        intro a ha b hb
        rw [List.mem_singleton.mp hb]
        exact (mem_rruleBetween ha).2
  · exact iter_rrule_self

/-- Witness for C2's amended theorem at `start = 2020-01-01`,
`end = 2020-03-15`. -/
theorem c2_boundary_sequence_witness :
    (iter_rrule ⟨2020, 1, 1, 0, 0, 0⟩ ⟨2020, 3, 15, 0, 0, 0⟩).head? = some ⟨2020, 1, 1, 0, 0, 0⟩ ∧
    (iter_rrule ⟨2020, 1, 1, 0, 0, 0⟩ ⟨2020, 3, 15, 0, 0, 0⟩).getLast? = some ⟨2020, 3, 15, 0, 0, 0⟩ ∧
    (iter_rrule ⟨2020, 1, 1, 0, 0, 0⟩ ⟨2020, 3, 15, 0, 0, 0⟩).Pairwise DT.lt :=
  c2_boundary_sequence.1 ⟨2020, 1, 1, 0, 0, 0⟩ ⟨2020, 3, 15, 0, 0, 0⟩ (by decide)

/-! ### The concrete pass of claim C1 -/

def dtJan1 : DT := ⟨2020, 1, 1, 0, 0, 0⟩

def dtFeb1 : DT := ⟨2020, 2, 1, 0, 0, 0⟩

def dtMar1 : DT := ⟨2020, 3, 1, 0, 0, 0⟩

def dtMar15 : DT := ⟨2020, 3, 15, 0, 0, 0⟩

/-- C1's backend in forward mode: `date_data_start = 2020-01-01`, no prior
watermark, structure guard passing. -/
def bFwd : Backend := ⟨1, dtJan1, false, true, none⟩

/-- C1's backend with `import_inverse` set. -/
def bInv : Backend := ⟨1, dtJan1, true, true, none⟩

/-- Claim C1 (counterexample): with `import_inverse` set, the pass run at
2020-03-15T00:00:00 does not dispatch 3 windows (6 batch tasks): it
dispatches 4 windows (8 tasks), and the first dispatched window spans the
entire range `[2020-01-01, 2020-03-15]`, because the loop's running
`from_date` still holds the resolved start when the reversed walk begins at
`to_date`. -/
theorem c1_counterexample :
    (importFromDate [bInv] "m" "wm" "chg_date" "add_date" dtMar15).tasks.length = 8 ∧
    (importFromDate [bInv] "m" "wm" "chg_date" "add_date" dtMar15).tasks.head? =
      some ⟨1, "m", "add_date", dtJan1, dtMar15, 10⟩ ∧
    ¬ (importFromDate [bInv] "m" "wm" "chg_date" "add_date" dtMar15).tasks.length = 6 := by
  refine ⟨by decide, ?_, by decide⟩
  rfl

/-- Claim C1 (amended): the boundary sequence is
`[2020-01-01, 2020-02-01, 2020-03-01, 2020-03-15]` and the forward pass
dispatches exactly the 3 windows `(01-01,02-01)`, `(02-01,03-01)`,
`(03-01,03-15)` (one `add_date` and one `chg_date` fetch each); with
`import_inverse` set the pass dispatches 4 windows — first the full range
`(01-01,03-15)`, then the 3 windows newest-first, each normalized to
`start ≤ end`; in both modes the final watermark is
`2020-03-14T23:59:30 = to_date − 30s`. -/
theorem c1_amended :
    iter_rrule dtJan1 dtMar15 = [dtJan1, dtFeb1, dtMar1, dtMar15] ∧
    (importFromDate [bFwd] "m" "wm" "chg_date" "add_date" dtMar15).tasks =
      [⟨1, "m", "add_date", dtJan1, dtFeb1, 10⟩, ⟨1, "m", "chg_date", dtJan1, dtFeb1, 10⟩,
       ⟨1, "m", "add_date", dtFeb1, dtMar1, 10⟩, ⟨1, "m", "chg_date", dtFeb1, dtMar1, 10⟩,
       ⟨1, "m", "add_date", dtMar1, dtMar15, 10⟩, ⟨1, "m", "chg_date", dtMar1, dtMar15, 10⟩] ∧
    (importFromDate [bFwd] "m" "wm" "chg_date" "add_date" dtMar15).writes =
      [⟨[1], "wm", ⟨2020, 3, 14, 23, 59, 30⟩⟩] ∧
    (importFromDate [bInv] "m" "wm" "chg_date" "add_date" dtMar15).tasks =
      [⟨1, "m", "add_date", dtJan1, dtMar15, 10⟩, ⟨1, "m", "chg_date", dtJan1, dtMar15, 10⟩,
       ⟨1, "m", "add_date", dtMar1, dtMar15, 10⟩, ⟨1, "m", "chg_date", dtMar1, dtMar15, 10⟩,
       ⟨1, "m", "add_date", dtFeb1, dtMar1, 10⟩, ⟨1, "m", "chg_date", dtFeb1, dtMar1, 10⟩,
       ⟨1, "m", "add_date", dtJan1, dtFeb1, 10⟩, ⟨1, "m", "chg_date", dtJan1, dtFeb1, 10⟩] ∧
    (importFromDate [bInv] "m" "wm" "chg_date" "add_date" dtMar15).writes =
      [⟨[1], "wm", ⟨2020, 3, 14, 23, 59, 30⟩⟩] :=
  ⟨rfl, rfl, rfl, rfl, rfl⟩

/-! ### Calendar arithmetic: `predSec` subtracts one second on the timeline -/

lemma daysInMonth_pos (y m : Nat) : 1 ≤ daysInMonth y m := by
  unfold daysInMonth
  split
  · split <;> omega
  · split <;> omega

lemma daysBeforeMonth_succ (y m : Nat) (h : 1 ≤ m) :
    daysBeforeMonth y (m + 1) = daysBeforeMonth y m + daysInMonth y m := by
  cases m with
  | zero => omega
  | succ k => rfl

lemma daysBeforeMonth_year (y : Nat) :
    daysBeforeMonth y 12 + 31 = if isLeap y then 366 else 365 := by
  have e2 : daysBeforeMonth y 2 = daysBeforeMonth y 1 + daysInMonth y 1 := rfl
  have e3 : daysBeforeMonth y 3 = daysBeforeMonth y 2 + daysInMonth y 2 := rfl
  have e4 : daysBeforeMonth y 4 = daysBeforeMonth y 3 + daysInMonth y 3 := rfl
  have e5 : daysBeforeMonth y 5 = daysBeforeMonth y 4 + daysInMonth y 4 := rfl
  have e6 : daysBeforeMonth y 6 = daysBeforeMonth y 5 + daysInMonth y 5 := rfl
  have e7 : daysBeforeMonth y 7 = daysBeforeMonth y 6 + daysInMonth y 6 := rfl
  have e8 : daysBeforeMonth y 8 = daysBeforeMonth y 7 + daysInMonth y 7 := rfl
  have e9 : daysBeforeMonth y 9 = daysBeforeMonth y 8 + daysInMonth y 8 := rfl
  have e10 : daysBeforeMonth y 10 = daysBeforeMonth y 9 + daysInMonth y 9 := rfl
  have e11 : daysBeforeMonth y 11 = daysBeforeMonth y 10 + daysInMonth y 10 := rfl
  have e12 : daysBeforeMonth y 12 = daysBeforeMonth y 11 + daysInMonth y 11 := rfl
  have e1 : daysBeforeMonth y 1 = 0 := rfl
  have d1 : daysInMonth y 1 = 31 := rfl
  have d2 : daysInMonth y 2 = if isLeap y then 29 else 28 := rfl
  have d3 : daysInMonth y 3 = 31 := rfl
  have d4 : daysInMonth y 4 = 30 := rfl
  have d5 : daysInMonth y 5 = 31 := rfl
  have d6 : daysInMonth y 6 = 30 := rfl
  have d7 : daysInMonth y 7 = 31 := rfl
  have d8 : daysInMonth y 8 = 31 := rfl
  have d9 : daysInMonth y 9 = 30 := rfl
  have d10 : daysInMonth y 10 = 31 := rfl
  have d11 : daysInMonth y 11 = 30 := rfl
  cases hL : isLeap y <;> simp [hL] at d2 ⊢ <;> omega

lemma predSec_spec {d : DT} (hv : Valid d) (h1 : 1 ≤ toSecs d) :
    toSecs (predSec d) + 1 = toSecs d ∧ Valid (predSec d) := by
  obtain ⟨hm1, hm2, hd1, hd2, hh, hmin, hs⟩ := hv
  unfold predSec
  split_ifs with hc1 hc2 hc3 hc4 hc5
  · constructor
    · unfold toSecs
      dsimp only
      omega
    · exact ⟨hm1, hm2, hd1, hd2, hh, hmin, by dsimp only; omega⟩
  · constructor
    · unfold toSecs
      dsimp only
      omega
    · exact ⟨hm1, hm2, hd1, hd2, hh, by dsimp only; omega, by dsimp only; omega⟩
  · constructor
    · unfold toSecs
      dsimp only
      omega
    · exact ⟨hm1, hm2, hd1, hd2, by dsimp only; omega, by dsimp only; omega,
        by dsimp only; omega⟩
  · constructor
    · unfold toSecs
      dsimp only
      omega
    · exact ⟨hm1, hm2, by dsimp only; omega, by dsimp only; omega, by dsimp only; omega,
        by dsimp only; omega, by dsimp only; omega⟩
  · have hm1' : 1 ≤ d.month - 1 := by omega
    have hsucc := daysBeforeMonth_succ d.year (d.month - 1) hm1'
    rw [show d.month - 1 + 1 = d.month by omega] at hsucc
    have hp := daysInMonth_pos d.year (d.month - 1)
    constructor
    · unfold toSecs
      dsimp only
      omega
    · exact ⟨by dsimp only; omega, by dsimp only; omega, by dsimp only; omega,
        by dsimp only; exact Nat.le_refl _, by dsimp only; omega, by dsimp only; omega,
        by dsimp only; omega⟩
  · have hsec0 : d.second = 0 := by omega
    have hmin0 : d.minute = 0 := by omega
    have hh0 : d.hour = 0 := by omega
    have hday : d.day = 1 := by omega
    have hmon : d.month = 1 := by omega
    have hdBM1 : daysBeforeMonth d.year 1 = 0 := rfl
    have htS : toSecs d = daysBeforeYear d.year * 24 * 3600 := by
      unfold toSecs
      rw [hmon, hday, hsec0, hmin0, hh0, hdBM1]
      omega
    cases hyc : d.year with
    | zero =>
      exfalso
      rw [hyc] at htS
      simp only [daysBeforeYear] at htS
      omega
    | succ k =>
      have hY : daysBeforeYear (k + 1)
          = daysBeforeYear k + (if isLeap k then 366 else 365) := rfl
      have hBMy := daysBeforeMonth_year k
      have hk1 : k + 1 - 1 = k := rfl
      constructor
      · rw [htS, hyc]
        have hL1 : toSecs ⟨k + 1 - 1, 12, 31, 23, 59, 59⟩
            = ((daysBeforeYear k + daysBeforeMonth k 12 + 30) * 24 + 23) * 3600
              + 59 * 60 + 59 := by
          unfold toSecs
          dsimp only
          rw [hk1]
        rw [hL1]
        cases hL : isLeap k <;> simp [hL] at hY hBMy <;> omega
      · exact ⟨by dsimp only; omega, by dsimp only; omega, by dsimp only; omega,
          by dsimp only; exact Nat.le_refl 31, by dsimp only; omega, by dsimp only; omega,
          by dsimp only; omega⟩

lemma subSeconds_spec (n : Nat) : ∀ d : DT, Valid d → n ≤ toSecs d →
    toSecs (subSeconds d n) + n = toSecs d ∧ Valid (subSeconds d n) := by
  induction n with
  | zero => exact fun d hv _ => ⟨by simp [subSeconds], hv⟩
  | succ k ih =>
    intro d hv hn
    have h1 : 1 ≤ toSecs d := by omega
    obtain ⟨he, hv2⟩ := predSec_spec hv h1
    have hk : k ≤ toSecs (predSec d) := by omega
    obtain ⟨ih1, ih2⟩ := ih (predSec d) hv2 hk
    refine ⟨?_, ih2⟩
    show toSecs (subSeconds (predSec d) k) + (k + 1) = toSecs d
    omega

/-- The buffer subtraction moves strictly back on the timeline: for a valid
instant at least `n > 0` seconds after the epoch, `subSeconds d n ≠ d`. -/
lemma subSeconds_ne (n : Nat) (d : DT) (hv : Valid d) (hn : 1 ≤ n)
    (hle : n ≤ toSecs d) : subSeconds d n ≠ d := by
  intro hEq
  have h := (subSeconds_spec n d hv hle).1
  rw [hEq] at h
  omega

/-! ### Structure of a scheduling pass -/

lemma importFromDateInner_tasks (b : Backend) (mn : String) (s e : DT) (f : String)
    (pr : Nat) : ∀ t ∈ (importFromDateInner b mn s e f pr).tasks,
    t.backendId = b.id ∧ DT.le t.filterGe t.filterLe := by
  intro t ht
  unfold importFromDateInner at ht
  dsimp only at ht
  split at ht
  · rw [List.mem_singleton] at ht
    subst ht
    refine ⟨rfl, ?_⟩
    show DT.le (if DT.lt e s then e else s) (if DT.lt e s then s else e)
    by_cases h : DT.lt e s
    · rw [if_pos h, if_pos h]
      exact DT.lt_asymm h
    · rw [if_neg h, if_neg h]
      exact h
  · exact absurd ht (List.not_mem_nil t)

lemma importFromDateInner_ok (b : Backend) (mn : String) (s e : DT) (f : String)
    (pr : Nat) : (importFromDateInner b mn s e f pr).ok = b.structureOk := by
  cases hb : b.structureOk <;>
    simp [importFromDateInner, check_carepoint_structure, hb]

lemma importLoop_tasks (b : Backend) (mn chgF addF : String) :
    ∀ (dates : List DT) (fd : DT) (t : Task),
      t ∈ (importLoop b mn chgF addF fd dates).tasks →
      t.backendId = b.id ∧ DT.le t.filterGe t.filterLe := by
  intro dates
  induction dates with
  | nil =>
    intro fd t ht
    exact absurd ht (List.not_mem_nil t)
  | cons dt rest ih =>
    intro fd t ht
    simp only [importLoop] at ht
    split at ht
    · split at ht
      · split at ht
        · dsimp only at ht
          rcases List.mem_append.mp ht with h | h
          · exact importFromDateInner_tasks b mn fd dt addF 10 t h
          · rcases List.mem_append.mp h with h2 | h2
            · exact importFromDateInner_tasks b mn fd dt chgF 10 t h2
            · exact ih dt t h2
        · dsimp only at ht
          rcases List.mem_append.mp ht with h | h
          · exact importFromDateInner_tasks b mn fd dt addF 10 t h
          · exact importFromDateInner_tasks b mn fd dt chgF 10 t h
      · exact importFromDateInner_tasks b mn fd dt addF 10 t ht
    · exact ih dt t ht

lemma importLoop_ok (b : Backend) (mn chgF addF : String) (hb : b.structureOk = true) :
    ∀ (dates : List DT) (fd : DT), (importLoop b mn chgF addF fd dates).ok = true := by
  intro dates
  induction dates with
  | nil => intro fd; rfl
  | cons dt rest ih =>
    intro fd
    simp only [importLoop]
    split
    · simp [importFromDateInner_ok, hb, ih dt]
    · exact ih dt

lemma processBackend_tasks (b : Backend) (mn chgF addF : String) (now : DT) :
    ∀ t ∈ (processBackend b mn chgF addF now).tasks,
      t.backendId = b.id ∧ b.structureOk = true ∧ DT.le t.filterGe t.filterLe := by
  intro t ht
  unfold processBackend at ht
  split at ht
  case isTrue hb =>
    dsimp only at ht
    obtain ⟨h1, h2⟩ := importLoop_tasks b mn chgF addF _ _ t ht
    exact ⟨h1, hb, h2⟩
  case isFalse hb =>
    exact absurd ht (List.not_mem_nil t)

lemma processBackend_ok (b : Backend) (mn chgF addF : String) (now : DT)
    (hb : b.structureOk = true) : (processBackend b mn chgF addF now).ok = true := by
  simp [processBackend, check_carepoint_structure, hb, importLoop_ok b mn chgF addF hb]

lemma processBackend_fail (b : Backend) (mn chgF addF : String) (now : DT)
    (hb : b.structureOk = false) :
    processBackend b mn chgF addF now = ⟨[b.id], [], false⟩ := by
  simp [processBackend, check_carepoint_structure, hb]

lemma importBackends_allOk (mn chgF addF : String) (now : DT) :
    ∀ backends : List Backend, (∀ b ∈ backends, b.structureOk = true) →
      (importBackends mn chgF addF now backends).ok = true := by
  intro backends
  induction backends with
  | nil => intro _; rfl
  | cons b0 rest ih =>
    intro h
    have h0 := processBackend_ok b0 mn chgF addF now (h b0 (List.mem_cons_self b0 rest))
    have hr := ih (fun b' hb' => h b' (List.mem_cons_of_mem b0 hb'))
    simp only [importBackends]
    rw [if_pos h0]
    exact hr

lemma importBackends_fail (mn chgF addF : String) (now : DT) :
    ∀ (backends : List Backend) (b : Backend), b ∈ backends → b.structureOk = false →
      (importBackends mn chgF addF now backends).ok = false := by
  intro backends
  induction backends with
  | nil => intro b hb; exact absurd hb (List.not_mem_nil b)
  | cons b0 rest ih =>
    intro b hb hbf
    simp only [importBackends]
    by_cases h0 : (processBackend b0 mn chgF addF now).ok = true
    · rw [if_pos h0]
      dsimp only
      rcases List.mem_cons.mp hb with rfl | hmem
      · rw [processBackend_fail b mn chgF addF now hbf] at h0
        exact absurd h0 (by simp)
      · exact ih b hmem hbf
    · rw [if_neg h0]
      simp only [Bool.not_eq_true] at h0
      exact h0

lemma importBackends_tasks_mem (mn chgF addF : String) (now : DT) :
    ∀ (backends : List Backend) (t : Task),
      t ∈ (importBackends mn chgF addF now backends).tasks →
      ∃ b' ∈ backends, t.backendId = b'.id ∧ b'.structureOk = true ∧
        DT.le t.filterGe t.filterLe := by
  intro backends
  induction backends with
  | nil => intro t ht; exact absurd ht (List.not_mem_nil t)
  | cons b0 rest ih =>
    intro t ht
    simp only [importBackends] at ht
    by_cases h0 : (processBackend b0 mn chgF addF now).ok = true
    · rw [if_pos h0] at ht
      dsimp only at ht
      rcases List.mem_append.mp ht with h | h
      · obtain ⟨h1, h2, h3⟩ := processBackend_tasks b0 mn chgF addF now t h
        exact ⟨b0, List.mem_cons_self b0 rest, h1, h2, h3⟩
      · obtain ⟨b', hb', hrest⟩ := ih t h
        exact ⟨b', List.mem_cons_of_mem b0 hb', hrest⟩
    · rw [if_neg h0] at ht
      obtain ⟨h1, h2, h3⟩ := processBackend_tasks b0 mn chgF addF now t ht
      exact ⟨b0, List.mem_cons_self b0 rest, h1, h2, h3⟩

lemma importBackends_tasks_eq (mn chgF addF : String) (now : DT) :
    ∀ backends : List Backend, (importBackends mn chgF addF now backends).ok = true →
      (importBackends mn chgF addF now backends).tasks
        = perBackendTasks mn chgF addF now backends := by
  intro backends
  induction backends with
  | nil => intro _; rfl
  | cons b0 rest ih =>
    intro hok
    simp only [importBackends] at hok ⊢
    by_cases h0 : (processBackend b0 mn chgF addF now).ok = true
    · rw [if_pos h0] at hok ⊢
      dsimp only at hok ⊢
      simp only [perBackendTasks]
      rw [ih hok]
    · rw [if_neg h0] at hok
      simp only [Bool.not_eq_true] at h0
      rw [h0] at hok
      exact absurd hok (by simp)

lemma importFromDate_tasks (backends : List Backend)
    (mn fF chgF addF : String) (now : DT) :
    (importFromDate backends mn fF chgF addF now).tasks
      = (importBackends mn chgF addF now backends).tasks := by
  unfold importFromDate
  dsimp only
  split <;> rfl

lemma importFromDate_ok_writes (backends : List Backend) (mn fF chgF addF : String)
    (now : DT) (h : (importBackends mn chgF addF now backends).ok = true) :
    (importFromDate backends mn fF chgF addF now).ok = true ∧
    (importFromDate backends mn fF chgF addF now).writes
      = [⟨backends.map Backend.id, fF, subSeconds now IMPORT_DELTA_BUFFER⟩] := by
  unfold importFromDate
  dsimp only
  rw [if_pos h]
  exact ⟨rfl, rfl⟩

lemma importFromDate_fail (backends : List Backend) (mn fF chgF addF : String)
    (now : DT) (h : (importBackends mn chgF addF now backends).ok = false) :
    (importFromDate backends mn fF chgF addF now).ok = false ∧
    (importFromDate backends mn fF chgF addF now).writes = [] := by
  unfold importFromDate
  dsimp only
  rw [if_neg (by simp [h])]
  exact ⟨rfl, rfl⟩

/-- Claim C4: every dispatched fetch filter satisfies lower ≤ upper: the
dispatch helper swaps the endpoints when the first exceeds the second, so
every task of a pass — including those produced by the reversed walk —
carries a normalized window. -/
theorem c4_window_normalized (backends : List Backend)
    (modelName fromField chgF addF : String) (now : DT) (t : Task)
    (ht : t ∈ (importFromDate backends modelName fromField chgF addF now).tasks) :
    DT.le t.filterGe t.filterLe := by
  rw [importFromDate_tasks] at ht
  obtain ⟨b', hb', hid, hbok, hle⟩ :=
    importBackends_tasks_mem modelName chgF addF now backends t ht
  exact hle

/-- Witness for C4 at the first task of C1's forward pass. -/
theorem c4_window_normalized_witness : DT.le dtJan1 dtFeb1 :=
  c4_window_normalized [bFwd] "m" "wm" "chg_date" "add_date" dtMar15
    ⟨1, "m", "add_date", dtJan1, dtFeb1, 10⟩ (by decide)

/-- Claim C3: `to_date` is the single pass-start instant `now`: every
backend's tasks are generated against that one value, and on a successful
pass the watermark written is `now − 30s`, which differs from `now`. -/
theorem c3_watermark_buffer (backends : List Backend)
    (modelName fromField chgF addF : String) (now : DT)
    (hv : Valid now) (hbuf : IMPORT_DELTA_BUFFER ≤ toSecs now)
    (hok : (importFromDate backends modelName fromField chgF addF now).ok = true) :
    (importFromDate backends modelName fromField chgF addF now).writes
      = [⟨backends.map Backend.id, fromField, subSeconds now IMPORT_DELTA_BUFFER⟩] ∧
    subSeconds now IMPORT_DELTA_BUFFER ≠ now ∧
    (importFromDate backends modelName fromField chgF addF now).tasks
      = perBackendTasks modelName chgF addF now backends := by
  have hone : 1 ≤ IMPORT_DELTA_BUFFER := by norm_num [IMPORT_DELTA_BUFFER]
  have hne := subSeconds_ne IMPORT_DELTA_BUFFER now hv hone hbuf
  by_cases hr : (importBackends modelName chgF addF now backends).ok = true
  · obtain ⟨_, hw⟩ := importFromDate_ok_writes backends modelName fromField chgF addF now hr
    refine ⟨hw, hne, ?_⟩
    rw [importFromDate_tasks]
    exact importBackends_tasks_eq modelName chgF addF now backends hr
  · exfalso
    simp only [Bool.not_eq_true] at hr
    have hf := (importFromDate_fail backends modelName fromField chgF addF now hr).1
    rw [hf] at hok
    exact absurd hok (by simp)

/-- Witness for C3 at a one-backend pass starting 0001-01-01T00:01:00. -/
theorem c3_watermark_buffer_witness :
    (importFromDate [⟨1, ⟨1, 1, 1, 0, 0, 0⟩, false, true, none⟩] "m" "wm" "chg_date"
        "add_date" ⟨1, 1, 1, 0, 1, 0⟩).writes
      = [⟨[1], "wm", subSeconds ⟨1, 1, 1, 0, 1, 0⟩ IMPORT_DELTA_BUFFER⟩] ∧
    subSeconds ⟨1, 1, 1, 0, 1, 0⟩ IMPORT_DELTA_BUFFER ≠ ⟨1, 1, 1, 0, 1, 0⟩ :=
  ⟨(c3_watermark_buffer [⟨1, ⟨1, 1, 1, 0, 0, 0⟩, false, true, none⟩] "m" "wm" "chg_date"
      "add_date" ⟨1, 1, 1, 0, 1, 0⟩ (by decide) (by decide) (by decide)).1,
   (c3_watermark_buffer [⟨1, ⟨1, 1, 1, 0, 0, 0⟩, false, true, none⟩] "m" "wm" "chg_date"
      "add_date" ⟨1, 1, 1, 0, 1, 0⟩ (by decide) (by decide) (by decide)).2.1⟩

/-- Claim C5: a structure-guard failure for a backend aborts the pass: the
pass ends in the error state, no watermark write happens at all, and no
window task is dispatched for the failing backend. -/
theorem c5_guard_aborts (backends : List Backend) (b : Backend)
    (modelName fromField chgF addF : String) (now : DT)
    (hnd : (backends.map Backend.id).Nodup) (hmem : b ∈ backends)
    (hfail : b.structureOk = false) :
    (importFromDate backends modelName fromField chgF addF now).ok = false ∧
    (importFromDate backends modelName fromField chgF addF now).writes = [] ∧
    ∀ t ∈ (importFromDate backends modelName fromField chgF addF now).tasks,
      t.backendId ≠ b.id := by
  have hko := importBackends_fail modelName chgF addF now backends b hmem hfail
  obtain ⟨h1, h2⟩ := importFromDate_fail backends modelName fromField chgF addF now hko
  refine ⟨h1, h2, ?_⟩
  intro t ht
  rw [importFromDate_tasks] at ht
  obtain ⟨b', hb', hid, hbok, _⟩ :=
    importBackends_tasks_mem modelName chgF addF now backends t ht
  intro hcontra
  have hbb : b' = b := by
    refine List.inj_on_of_nodup_map hnd hb' hmem ?_
    rw [← hid]
    exact hcontra
  rw [hbb, hfail] at hbok
  exact Bool.noConfusion hbok

/-- Witness for C5 at a one-backend pass whose guard fails. -/
theorem c5_guard_aborts_witness :
    (importFromDate [⟨1, dtJan1, false, false, none⟩] "m" "wm" "chg_date" "add_date"
        dtMar15).ok = false ∧
    (importFromDate [⟨1, dtJan1, false, false, none⟩] "m" "wm" "chg_date" "add_date"
        dtMar15).writes = [] :=
  ⟨(c5_guard_aborts [⟨1, dtJan1, false, false, none⟩] ⟨1, dtJan1, false, false, none⟩
      "m" "wm" "chg_date" "add_date" dtMar15 (by decide) (by decide) rfl).1,
   (c5_guard_aborts [⟨1, dtJan1, false, false, none⟩] ⟨1, dtJan1, false, false, none⟩
      "m" "wm" "chg_date" "add_date" dtMar15 (by decide) (by decide) rfl).2.1⟩

/-- Claim C8: when a backend's resolved `from_date` equals `to_date`, its
body dispatches zero window tasks while still running the structure guard
once; and the (successful) pass still writes the watermark
`to_date − buffer`. -/
theorem c8_degenerate_pass (backends : List Backend) (b : Backend)
    (modelName fromField chgF addF : String) (now : DT)
    (hmem : b ∈ backends) (hall : ∀ b' ∈ backends, b'.structureOk = true)
    (hdeg : b.watermark.getD b.dateDataStart = now) :
    (processBackend b modelName chgF addF now).tasks = [] ∧
    (processBackend b modelName chgF addF now).guards = [b.id] ∧
    (importFromDate backends modelName fromField chgF addF now).ok = true ∧
    (importFromDate backends modelName fromField chgF addF now).writes
      = [⟨backends.map Backend.id, fromField, subSeconds now IMPORT_DELTA_BUFFER⟩] := by
  have hb := hall b hmem
  have hl2 : importLoop b modelName chgF addF now [now, now] = ⟨[], [], true⟩ := by
    simp [importLoop]
  have hpb : processBackend b modelName chgF addF now = ⟨[b.id], [], true⟩ := by
    unfold processBackend
    rw [if_pos (show check_carepoint_structure b = true from hb)]
    dsimp only
    rw [hdeg, iter_rrule_self]
    have hrev : (if b.importInverse then ([now, now] : List DT).reverse
        else [now, now]) = [now, now] := by
      split <;> rfl
    rw [hrev, hl2]
  have hok := importBackends_allOk modelName chgF addF now backends hall
  obtain ⟨h3, h4⟩ := importFromDate_ok_writes backends modelName fromField chgF addF now hok
  rw [hpb]
  exact ⟨rfl, rfl, h3, h4⟩

/-- Witness for C8: a backend whose stored watermark equals the pass
start. -/
theorem c8_degenerate_pass_witness :
    (processBackend ⟨1, dtJan1, false, true, some dtMar15⟩ "m" "chg_date" "add_date"
        dtMar15).tasks = [] ∧
    (importFromDate [⟨1, dtJan1, false, true, some dtMar15⟩] "m" "wm" "chg_date"
        "add_date" dtMar15).writes
      = [⟨[1], "wm", subSeconds dtMar15 IMPORT_DELTA_BUFFER⟩] :=
  ⟨(c8_degenerate_pass [⟨1, dtJan1, false, true, some dtMar15⟩]
      ⟨1, dtJan1, false, true, some dtMar15⟩ "m" "wm" "chg_date" "add_date" dtMar15
      (by decide) (by decide) rfl).1,
   (c8_degenerate_pass [⟨1, dtJan1, false, true, some dtMar15⟩]
      ⟨1, dtJan1, false, true, some dtMar15⟩ "m" "wm" "chg_date" "add_date" dtMar15
      (by decide) (by decide) rfl).2.2.2⟩

/-- Claim C10: a successful pass performs exactly one persistence write; it
sets only the given `from_date_field`, targets every backend of the
recordset, and stores the one shared value `now − 30s`. -/
theorem c10_single_write (backends : List Backend)
    (modelName fromField chgF addF : String) (now : DT)
    (hall : ∀ b' ∈ backends, b'.structureOk = true) :
    (importFromDate backends modelName fromField chgF addF now).ok = true ∧
    (importFromDate backends modelName fromField chgF addF now).writes
      = [⟨backends.map Backend.id, fromField, subSeconds now IMPORT_DELTA_BUFFER⟩] :=
  importFromDate_ok_writes backends modelName fromField chgF addF now
    (importBackends_allOk modelName chgF addF now backends hall)

/-- Witness for C10 at a two-backend pass. -/
theorem c10_single_write_witness :
    (importFromDate [⟨1, dtJan1, false, true, none⟩, ⟨2, dtFeb1, true, true, none⟩]
        "m" "wm" "chg_date" "add_date" dtMar15).ok = true ∧
    (importFromDate [⟨1, dtJan1, false, true, none⟩, ⟨2, dtFeb1, true, true, none⟩]
        "m" "wm" "chg_date" "add_date" dtMar15).writes
      = [⟨[1, 2], "wm", subSeconds dtMar15 IMPORT_DELTA_BUFFER⟩] :=
  c10_single_write [⟨1, dtJan1, false, true, none⟩, ⟨2, dtFeb1, true, true, none⟩]
    "m" "wm" "chg_date" "add_date" dtMar15 (by decide)

/-! ### The forced-resync entry points -/

/-- Claim C6 (the code at the failing input): `resync_all` over one bound
record holding one binding raises `NameError` — the body reads the unbound
name `bindind` (a typo for `binding`) — instead of submitting the single
forced task the claim requires; nothing is submitted. -/
theorem c6_resync_name_error :
    resync_all [⟨[⟨1, 42⟩]⟩] 10 = .error (.nameError "bindind") := rfl

/-- Claim C7 (the code at the failing input): every `force_sync` call
raises `NameError` — the body reads `priority`, which is neither a
parameter nor defined in any enclosing scope — before any forced import is
submitted. -/
theorem c7_force_sync_name_error :
    force_sync "carepoint.medical.patient" 42 (.byId 1) = .error (.nameError "priority") := rfl

/-! ### The default-per-company constraint -/

lemma applyVals_id (vals : WriteVals) (r : BackendRow) :
    (applyVals vals r).id = r.id := rfl

lemma writtenState_untouched (recs : List BackendRow) (targets : List Nat)
    (vals : WriteVals) (h1 : vals.is_default = none) (h2 : vals.company_id = none) :
    writtenState recs targets vals = recs := by
  unfold writtenState
  have hid : ∀ r : BackendRow,
      (if targets.contains r.id then applyVals vals r else r) = r := by
    intro r
    have happ : applyVals vals r = r := by
      unfold applyVals
      rw [h1, h2]
      rfl
    rw [happ]
    exact ite_self r
  induction recs with
  | nil => rfl
  | cons a l ihl =>
    rw [List.map_cons, hid a, ihl]

lemma countDefaults_written_le (vals : WriteVals) (targets : List Nat) (c : Nat)
    (recs : List BackendRow)
    (h : ∀ r ∈ recs, targets.contains r.id = true →
      ((applyVals vals r).company_id == c && (applyVals vals r).is_default) = false) :
    countDefaults (writtenState recs targets vals) c ≤ countDefaults recs c := by
  unfold countDefaults writtenState
  rw [List.countP_map]
  apply List.countP_mono_left
  intro r hr hpr
  simp only [Function.comp_apply] at hpr
  by_cases hc : targets.contains r.id = true
  · rw [if_pos hc, h r hr hc] at hpr
    exact Bool.noConfusion hpr
  · rw [if_neg hc] at hpr
    exact hpr

lemma violation_has_written (recs : List BackendRow) (targets : List Nat)
    (vals : WriteVals) (hpre : ∀ c, countDefaults recs c ≤ 1) (c : Nat)
    (hc : 2 ≤ countDefaults (writtenState recs targets vals) c) :
    ∃ q ∈ writtenState recs targets vals,
      targets.contains q.id = true ∧ q.company_id = c ∧ q.is_default = true := by
  by_contra hno
  push_neg at hno
  have hle : countDefaults (writtenState recs targets vals) c ≤ countDefaults recs c := by
    apply countDefaults_written_le
    intro r hr htar
    have hmem : applyVals vals r ∈ writtenState recs targets vals := by
      unfold writtenState
      refine List.mem_map.mpr ⟨r, hr, ?_⟩
      rw [if_pos htar]
    have htar' : targets.contains (applyVals vals r).id = true := by
      rw [applyVals_id]
      exact htar
    by_cases hcc : (applyVals vals r).company_id = c
    · have hdf : (applyVals vals r).is_default = false := by
        have h' := hno (applyVals vals r) hmem htar' hcc
        cases hdef : (applyVals vals r).is_default
        · rfl
        · exact absurd hdef h'
      rw [hdf]
      exact Bool.and_false _
    · have hbc : ((applyVals vals r).company_id == c) = false := by
        simp [hcc]
      rw [hbc]
      exact Bool.false_and _
  have := hpre c
  omega

lemma writeBackend_ok_invariant (recs : List BackendRow) (targets : List Nat)
    (vals : WriteVals) (hpre : ∀ c, countDefaults recs c ≤ 1) :
    ∀ s, writeBackend recs targets vals = .ok s → ∀ c, countDefaults s c ≤ 1 := by
  intro s hok c
  unfold writeBackend at hok
  dsimp only at hok
  by_cases htouch : (vals.is_default.isSome || vals.company_id.isSome) = true
  · rw [if_pos htouch] at hok
    by_cases hchk : checkDefaultForCompany (writtenState recs targets vals)
        ((writtenState recs targets vals).filter (fun r => targets.contains r.id)) = true
    · rw [if_pos hchk] at hok
      have hs : s = writtenState recs targets vals := (Except.ok.inj hok).symm
      subst hs
      by_contra hgt
      have hc2 : 2 ≤ countDefaults (writtenState recs targets vals) c := by omega
      obtain ⟨q, hq, hqt, hqc, _⟩ := violation_has_written recs targets vals hpre c hc2
      have hqf : q ∈ (writtenState recs targets vals).filter
          (fun r => targets.contains r.id) :=
        List.mem_filter.mpr ⟨hq, hqt⟩
      have := List.all_eq_true.mp hchk q hqf
      rw [hqc] at this
      exact hgt (of_decide_eq_true this)
    · rw [if_neg hchk] at hok
      exact Except.noConfusion hok
  · rw [if_neg htouch] at hok
    have hnone1 : vals.is_default = none := by
      cases h1 : vals.is_default
      · rfl
      · rw [h1] at htouch
        simp at htouch
    have hnone2 : vals.company_id = none := by
      cases h2 : vals.company_id
      · rfl
      · rw [h2] at htouch
        simp at htouch
    have hs : s = writtenState recs targets vals := (Except.ok.inj hok).symm
    rw [writtenState_untouched recs targets vals hnone1 hnone2] at hs
    subst hs
    exact hpre c

lemma writeBackend_reject (recs : List BackendRow) (targets : List Nat)
    (vals : WriteVals) (hpre : ∀ c, countDefaults recs c ≤ 1)
    (hviol : ¬ ∀ c, countDefaults (writtenState recs targets vals) c ≤ 1) :
    writeBackend recs targets vals = .error (.validationError defaultErrMsg) := by
  push_neg at hviol
  obtain ⟨c, hc⟩ := hviol
  have hc2 : 2 ≤ countDefaults (writtenState recs targets vals) c := by omega
  by_cases htouch : (vals.is_default.isSome || vals.company_id.isSome) = true
  · unfold writeBackend
    dsimp only
    rw [if_pos htouch]
    by_cases hchk : checkDefaultForCompany (writtenState recs targets vals)
        ((writtenState recs targets vals).filter (fun r => targets.contains r.id)) = true
    · exfalso
      obtain ⟨q, hq, hqt, hqc, _⟩ := violation_has_written recs targets vals hpre c hc2
      have hqf : q ∈ (writtenState recs targets vals).filter
          (fun r => targets.contains r.id) :=
        List.mem_filter.mpr ⟨hq, hqt⟩
      have := List.all_eq_true.mp hchk q hqf
      rw [hqc] at this
      have := of_decide_eq_true this
      omega
    · rw [if_neg hchk]
  · exfalso
    have hnone1 : vals.is_default = none := by
      cases h1 : vals.is_default
      · rfl
      · rw [h1] at htouch
        simp at htouch
    have hnone2 : vals.company_id = none := by
      cases h2 : vals.company_id
      · rfl
      · rw [h2] at htouch
        simp at htouch
    rw [writtenState_untouched recs targets vals hnone1 hnone2] at hc2
    have := hpre c
    omega

/-- Claim C9: starting from a table with at most one default backend per
company, a write that would leave some company with two defaults is
rejected with the constraint's `ValidationError` (the update is rolled
back, so the stored rows keep their prior values), and after every
successful write the at-most-one-default-per-company invariant still
holds. -/
theorem c9_default_invariant (recs : List BackendRow) (targets : List Nat)
    (vals : WriteVals) (hpre : ∀ c, countDefaults recs c ≤ 1) :
    (∀ s, writeBackend recs targets vals = .ok s → ∀ c, countDefaults s c ≤ 1) ∧
    ((¬ ∀ c, countDefaults (writtenState recs targets vals) c ≤ 1) →
      writeBackend recs targets vals = .error (.validationError defaultErrMsg)) :=
  ⟨writeBackend_ok_invariant recs targets vals hpre,
   writeBackend_reject recs targets vals hpre⟩

/-- Witness for C9: company 5 already has default backend 1; writing
`{'is_default': True, 'company_id': 5}` on backend 2 is rejected. -/
theorem c9_default_invariant_witness :
    writeBackend [⟨1, 5, true⟩, ⟨2, 7, false⟩] [2] ⟨some true, some 5⟩
      = .error (.validationError defaultErrMsg) :=
  (c9_default_invariant [⟨1, 5, true⟩, ⟨2, 7, false⟩] [2] ⟨some true, some 5⟩
      (fun c => by
        unfold countDefaults
        simp only [List.countP_cons, List.countP_nil]
        by_cases h5 : (5 : Nat) = c <;> by_cases h7 : (7 : Nat) = c <;>
          simp [h5, h7])).2
    (fun h => absurd (h 5) (by decide))

end Carepoint
